import Mathlib

/-!
Verification of the DTSpectrum sweep-stream decoder.

The repository (rfexplorer_gui.py, rfexplorer_live.py, rfexplorer_record.py)
reads a byte stream from an RF Explorer spectrum analyzer and extracts
sweep frames (marker `$S`, one header byte, 112 payload bytes) and
configuration lines (`#C2-F:start,end,amp_top,amp_bottom\r\n`).

Bytes are modelled as `List Nat` (each element a byte value 0..255; the
Python code never depends on overflow, only on equality with marker bytes
and on the `-(b / 2.0)` conversion).  Device numeric fields (frequencies in
MHz, dBm values) are modelled as exact rationals `ℚ`; every arithmetic
operation the code performs on them (division by 1000, subtraction,
division by 112, halving a byte) is exact at this level.  Python string
searching (`find`, `rfind`) is modelled with fuel-based structural
recursion so that every definition evaluates by `decide`/`rfl`; wrappers
always supply sufficient fuel.
-/

namespace DTSpectrum

/-- Character codes of a string literal, used for the ASCII byte constants
appearing in the Python sources (`b'$S'`, `b'#C2-F:'`, `b'\r\n'`). -/
def strBytes (s : String) : List Nat := s.data.map Char.toNat

/-- The 2-byte sweep-frame marker `b'$S'` = [36, 83]. -/
def markerSS : List Nat := strBytes "$S"

/-- The 6-byte configuration marker `b'#C2-F:'`. -/
def markerCfg : List Nat := strBytes "#C2-F:"

/-- The line terminator `b'\r\n'` = [13, 10]. -/
def crlf : List Nat := strBytes "\r\n"

/-- Does the byte pattern `pat` occur in `buf` starting at position `i`?
Mirrors the match test done by Python `bytes.find` at one candidate
position. -/
def patAt (pat buf : List Nat) (i : Nat) : Bool :=
  (buf.drop i).take pat.length == pat

/-- Fuel-driven scan of `bytes.find(pat, i)`: the least `j ≥ i` at which
`pat` occurs, `none` when there is no occurrence (Python returns -1). -/
def findPatFrom (pat buf : List Nat) (i : Nat) : Nat → Option Nat
  | 0 => none
  | fuel + 1 =>
    if buf.length ≤ i then none
    else if patAt pat buf i then some i
    else findPatFrom pat buf (i + 1) fuel

/-- `bytes.find(pat, i)` with sufficient fuel. -/
def pyFind (pat buf : List Nat) (i : Nat) : Option Nat :=
  findPatFrom pat buf i (buf.length + 1)

/-- Descending scan for `bytes.rfind(b'$S')`: checks positions
`n-1, n-2, …, 0` and returns the first (i.e. greatest) match. -/
def rfindAux (buf : List Nat) : Nat → Option Nat
  | 0 => none
  | i + 1 => if patAt markerSS buf i then some i else rfindAux buf i

/-- `data.rfind(b'$S')` (GUI and recorder `parse_sweep`). -/
def pyRfind (buf : List Nat) : Option Nat := rfindAux buf buf.length

/-- One payload byte decoded to dBm: source `-(b / 2.0)`
(rfexplorer_gui.py line 87, rfexplorer_live.py line 63,
rfexplorer_record.py line 35). -/
def decodeByte (b : Nat) : ℚ := -((b : ℚ) / 2)

/-- A whole payload decoded position-wise:
source `[-(b / 2.0) for b in sweep_data]`. -/
def decodeSweep (p : List Nat) : List ℚ := p.map decodeByte

/-- `RFExplorerGUI.parse_sweep` = `RFRecorder.parse_sweep` (latest-only
policy, rfexplorer_gui.py lines 57-64 and rfexplorer_record.py lines
29-36):

    idx = data.rfind(b'$S')
    if idx >= 0 and len(data) > idx + 115:
        sweep_data = data[idx+3:idx+115]
        if len(sweep_data) == 112:
            return np.array([-(b / 2.0) for b in sweep_data])
    return None
-/
def parse_sweep (data : List Nat) : Option (List ℚ) :=
  match pyRfind data with
  | none => none
  | some idx =>
    if data.length > idx + 115 then
      let sweep_data := (data.drop (idx + 3)).take 112
      if sweep_data.length = 112 then some (decodeSweep sweep_data) else none
    else none

/-- The exhaustive scan loop of `RFExplorerGUI.read_data`
(rfexplorer_gui.py lines 79-93):

    idx = 0
    while True:
        idx = self.buffer.find(b'$S', idx)
        if idx == -1 or len(self.buffer) < idx + 115:
            break
        sweep_data = self.buffer[idx+3:idx+115]
        if len(sweep_data) == 112:
            sweep = np.array([-(b / 2.0) for b in sweep_data])
            ...decode, update peak_hold/history...
        idx += 116

Returns the decoded sweeps in buffer order together with the final value
of `idx` (`-1` when the loop exited because `find` failed, as in Python).
Fuel-driven; `read_data` supplies `buffer.length + 1` fuel, which is ample
since each iteration advances `idx` by at least 116. -/
def scanFrom (buf : List Nat) (idx : Nat) : Nat → List (List ℚ) × Int
  | 0 => ([], -1)
  | fuel + 1 =>
    match pyFind markerSS buf idx with
    | none => ([], -1)
    | some j =>
      if buf.length < j + 115 then ([], (j : Int))
      else
        let sweep_data := (buf.drop (j + 3)).take 112
        let rest := scanFrom buf (j + 116) fuel
        if sweep_data.length = 112 then (decodeSweep sweep_data :: rest.1, rest.2)
        else rest

/-- `cap_if_oversized` (spec section 4.1): the inline buffer cap
`if len(buffer) > max_len: buffer = buffer[-retain_len:]` appearing at
rfexplorer_gui.py lines 75-76 (8000/4000), rfexplorer_live.py lines
167-168 and rfexplorer_record.py lines 61-62 (5000/2000).  Python
`buffer[-n:]` keeps the last `min(n, len)` bytes, which `List.drop
(length - n)` reproduces exactly (Nat subtraction clamps at 0). -/
def cap_if_oversized (maxLen retainLen : Nat) (buf : List Nat) : List Nat :=
  if buf.length > maxLen then buf.drop (buf.length - retainLen) else buf

/-- The buffer-transforming core of `RFExplorerGUI.read_data`
(rfexplorer_gui.py lines 66-97) applied to the buffer contents after the
serial reads have been appended: cap at 8000/4000, run the exhaustive
scan, then

    if idx > 0:
        self.buffer = self.buffer[idx:]

Returns the decoded sweeps and the new buffer contents. -/
def read_data (buffer : List Nat) : List (List ℚ) × List Nat :=
  let capped := cap_if_oversized 8000 4000 buffer
  let r := scanFrom capped 0 (capped.length + 1)
  let buffer' := if r.2 > 0 then capped.drop r.2.toNat else capped
  (r.1, buffer')

/-- One read→scan cycle: the serial chunk read in this cycle is appended
to the retained buffer and `read_data` runs on the result. -/
def readCycle (buffer chunk : List Nat) : List (List ℚ) × List Nat :=
  read_data (buffer ++ chunk)

/-- A complete sweep frame: marker `$S`, one header byte, 112 payload
bytes — 115 bytes total from the marker start. -/
def mkFrame (header : Nat) (payload : List Nat) : List Nat :=
  markerSS ++ [header] ++ payload

/-- A concrete complete frame with header 0 and an all-zero payload
(no byte of which can start a `$S` match). -/
def frame0 : List Nat := mkFrame 0 (List.replicate 112 0)

/-- `np.maximum` on two equal-length arrays: point-wise maximum
(rfexplorer_gui.py line 89: `self.peak_hold = np.maximum(self.peak_hold, sweep)`). -/
def np_maximum (a b : List ℚ) : List ℚ := List.zipWith max a b

/-- The peak-hold reset baseline `np.full(self.sweep_points, -120.0)`
(rfexplorer_gui.py lines 33 and 51) and `self.peak_hold.fill(-120)`
(line 175). -/
def peak_hold_reset : List ℚ := List.replicate 112 (-120)

/-- The peak-hold value after the `read_data` loop has applied
`np.maximum` once per decoded sweep, in order, starting from `init`. -/
def peakAfter (sweeps : List (List ℚ)) (init : List ℚ) : List ℚ :=
  sweeps.foldl np_maximum init

/-- The tracked device configuration of `RFExplorer` (rfexplorer_live.py
lines 15-17): start/end frequency in MHz and the derived step, exact
rationals in this model. -/
structure RFConfig where
  start_freq : ℚ
  end_freq : ℚ
  step_freq : ℚ

/-- ASCII decimal digit test. -/
def isDigitB (c : Nat) : Bool := 48 ≤ c && c ≤ 57

/-- Python `int()` whitespace (space, tab, LF, VT, FF, CR — the ASCII ones
that can survive `decode('ascii', errors='ignore')`). -/
def isSpaceB (c : Nat) : Bool :=
  c == 32 || c == 9 || c == 10 || c == 11 || c == 12 || c == 13

/-- Strip leading and trailing whitespace, as Python `int()` does. -/
def stripWS (s : List Nat) : List Nat :=
  ((s.dropWhile isSpaceB).reverse.dropWhile isSpaceB).reverse

/-- Accumulate decimal digits; a single underscore is allowed between two
digits (Python 3 numeric literal grouping accepted by `int()`). -/
def digitsAcc (acc : Nat) : List Nat → Option Nat
  | [] => some acc
  | c :: rest =>
    if isDigitB c then digitsAcc (acc * 10 + (c - 48)) rest
    else if c == 95 then
      match rest with
      | [] => none
      | d :: rest2 =>
        if isDigitB d then digitsAcc (acc * 10 + (d - 48)) rest2 else none
    else none

/-- A non-empty all-digit (with grouping underscores) string to a Nat. -/
def parseDigits : List Nat → Option Nat
  | [] => none
  | c :: rest => if isDigitB c then digitsAcc (c - 48) rest else none

/-- Python `int(str)`: optional surrounding whitespace, optional sign,
decimal digits.  Returns `none` where Python raises `ValueError` (the
callers wrap the call in `try`/`except`). -/
def pyInt (s : List Nat) : Option ℤ :=
  match stripWS s with
  | 43 :: rest => (parseDigits rest).map (fun n => (n : ℤ))
  | 45 :: rest => (parseDigits rest).map (fun n => -(n : ℤ))
  | t => (parseDigits t).map (fun n => (n : ℤ))

/-- `data.split(b'\r\n')[0]`: the bytes before the first CRLF (all of
`data` when no CRLF occurs). -/
def takeUntilCRLF (s : List Nat) : List Nat :=
  match pyFind crlf s 0 with
  | none => s
  | some j => s.take j

/-- Python `str.replace(pat, '')`: delete every non-overlapping
left-to-right occurrence of `pat`.  Fuel-driven (each step consumes at
least one character); `pyReplaceAll` supplies ample fuel. -/
def replaceAllPat (pat : List Nat) : Nat → List Nat → List Nat
  | 0, s => s
  | fuel + 1, s =>
    match s with
    | [] => []
    | c :: rest =>
      if patAt pat (c :: rest) 0 then
        replaceAllPat pat fuel ((c :: rest).drop pat.length)
      else c :: replaceAllPat pat fuel rest

/-- `line.replace('#C2-F:', '')` and friends, with sufficient fuel. -/
def pyReplaceAll (pat s : List Nat) : List Nat :=
  replaceAllPat pat (s.length + 1) s

/-- `RFExplorer.parse_config` (rfexplorer_live.py lines 34-49):

    if b'#C2-F:' in data:
        try:
            idx = data.find(b'#C2-F:')
            line = data[idx:].split(b'\r\n')[0].decode('ascii', errors='ignore')
            parts = line.replace('#C2-F:', '').split(',')
            if len(parts) >= 2:
                self.start_freq = int(parts[0]) / 1000
                self.end_freq = int(parts[1]) / 1000
                self.step_freq = (self.end_freq - self.start_freq) / self.sweep_points
                return True
        except:
            pass
    return False

`decode('ascii', errors='ignore')` keeps exactly the bytes below 128.
The bare `except` catches the `ValueError` an `int()` call may raise, but
only AFTER `self.start_freq` has possibly been assigned — the partial
update is reproduced faithfully (`cfg1`).  `sweep_points` is fixed at
112.  Returns the Python return value paired with the updated tracked
configuration; no other exception source exists in the body, so the
function is total. -/
def parse_config (data : List Nat) (cfg : RFConfig) : Bool × RFConfig :=
  match pyFind markerCfg data 0 with
  | none => (false, cfg)
  | some idx =>
    let line := (takeUntilCRLF (data.drop idx)).filter (fun c => c < 128)
    let parts := (pyReplaceAll markerCfg line).splitOn 44
    match parts with
    | p0 :: p1 :: _ =>
      (match pyInt p0 with
      | none => (false, cfg)
      | some n0 =>
        let cfg1 := { cfg with start_freq := (n0 : ℚ) / 1000 }
        match pyInt p1 with
        | none => (false, cfg1)
        | some n1 =>
          (true, ⟨(n0 : ℚ) / 1000, (n1 : ℚ) / 1000,
            ((n1 : ℚ) / 1000 - (n0 : ℚ) / 1000) / 112⟩))
    | _ => (false, cfg)

/-- The mutable session state of `RFExplorerGUI` that `set_frequency`
touches (rfexplorer_gui.py lines 26-38): tracked frequency span, the
frequency axis, the current sweep, the peak-hold array, the sweep history
(deque) and the raw byte buffer. -/
structure GUIState where
  start_freq : ℚ
  end_freq : ℚ
  frequencies : List ℚ
  current_sweep : List ℚ
  peak_hold : List ℚ
  history : List (List ℚ)
  buffer : List Nat

/-- `np.linspace(a, b, n)`: `n` evenly spaced points from `a` to `b`
inclusive, point `i` at `a + i*(b-a)/(n-1)`. -/
def linspaceQ (a b : ℚ) (n : Nat) : List ℚ :=
  (List.range n).map (fun i => a + (i : ℚ) * ((b - a) / ((n : ℚ) - 1)))

/-- Python `int()` applied to a rational value: truncation toward zero
(the GUI computes `int(start_mhz * 1000)`). -/
def truncQ (q : ℚ) : ℤ := Int.tdiv q.num (q.den : ℤ)

/-- Decimal digits of `n` as character codes, least significant first;
fuel-driven (the wrapper passes `n` itself, ample since `n` has at most
`n` digits). -/
def digitsRev : Nat → Nat → List Nat
  | 0, _ => []
  | fuel + 1, n => if n = 0 then [] else (n % 10 + 48) :: digitsRev fuel (n / 10)

/-- Decimal digit characters of `n`, most significant first (empty for
0, which the zero-padding below turns into "0000000" exactly as Python
does). -/
def decDigits (n : Nat) : List Nat := (digitsRev n n).reverse

/-- Python `f"{n:07d}"`: zero-pad to total width 7; a negative value
carries a leading minus inside the width. -/
def fmt07d (n : ℤ) : List Nat :=
  if n < 0 then
    45 :: (List.replicate (6 - (decDigits (-n).toNat).length) 48
      ++ decDigits (-n).toNat)
  else
    List.replicate (7 - (decDigits n.toNat).length) 48 ++ decDigits n.toNat

/-- The textual command `f"C2-F:{start_khz:07d},{end_khz:07d},0000,-120"`
(rfexplorer_gui.py line 44) as character codes. -/
def cmdBytes (sk ek : ℤ) : List Nat :=
  strBytes "C2-F:" ++ fmt07d sk ++ [44] ++ fmt07d ek ++ strBytes ",0000,-120"

/-- UTF-8 encoding of one code point, as Python `str.encode()` performs
per character (code points beyond 2^16 cannot arise from `chr` of a
command length here, but the standard 4-byte branch is included). -/
def utf8Bytes (c : Nat) : List Nat :=
  if c < 128 then [c]
  else if c < 2048 then [192 + c / 64, 128 + c % 64]
  else if c < 65536 then [224 + c / 4096, 128 + c / 64 % 64, 128 + c % 64]
  else [240 + c / 262144, 128 + c / 4096 % 64, 128 + c / 64 % 64, 128 + c % 64]

/-- Python `str.encode()` over a list of code points. -/
def encodeStr (s : List Nat) : List Nat := (s.map utf8Bytes).flatten

/-- `RFExplorerGUI.set_frequency` (rfexplorer_gui.py lines 40-55):

    start_khz = int(start_mhz * 1000)
    end_khz = int(end_mhz * 1000)
    cmd = f"C2-F:{start_khz:07d},{end_khz:07d},0000,-120"
    full = "#" + chr(len(cmd) + 2) + cmd
    self.ser.write(full.encode())
    self.start_freq = start_mhz
    self.end_freq = end_mhz
    self.frequencies = np.linspace(start_mhz, end_mhz, self.sweep_points)
    self.peak_hold = np.full(self.sweep_points, -120.0)
    self.history.clear()
    self.buffer = b''

Returns the updated state paired with the bytes written to the serial
transport; the local state update happens immediately, before any device
response can arrive (the serial write is fire-and-forget). -/
def set_frequency (start_mhz end_mhz : ℚ) (st : GUIState) : GUIState × List Nat :=
  let start_khz : ℤ := truncQ (start_mhz * 1000)
  let end_khz : ℤ := truncQ (end_mhz * 1000)
  let cmd := cmdBytes start_khz end_khz
  let wire := encodeStr (35 :: (cmd.length + 2) :: cmd)
  ({ st with
      start_freq := start_mhz
      end_freq := end_mhz
      frequencies := linspaceQ start_mhz end_mhz 112
      peak_hold := List.replicate 112 (-120)
      history := []
      buffer := [] }, wire)

/-- The GUI state right after session construction
(rfexplorer_gui.py lines 26-38). -/
def gui_init : GUIState :=
  { start_freq := 5500, end_freq := 5700,
    frequencies := linspaceQ 5500 5700 112,
    current_sweep := List.replicate 112 (-100),
    peak_hold := List.replicate 112 (-120),
    history := [], buffer := [] }

/-- A session state mid-stream, with peak-hold, history and buffer
holding data, to exhibit that `set_frequency` clears them. -/
def gui_dirty : GUIState :=
  { gui_init with
    current_sweep := [7]
    peak_hold := [1]
    history := [[2]]
    buffer := [3] }

set_option maxRecDepth 40000


theorem markerSS_eq : markerSS = [36, 83] := rfl

theorem patAt_eq_true_iff (pat buf : List Nat) (i : Nat) :
    patAt pat buf i = true ↔ (buf.drop i).take pat.length = pat := by
  simp [patAt]

theorem patAt_false_of_len (buf : List Nat) (i : Nat) (h : buf.length ≤ i + 1) :
    patAt markerSS buf i = false := by
  rw [Bool.eq_false_iff]
  intro hp
  rw [patAt_eq_true_iff] at hp
  have hlen := congrArg List.length hp
  simp [List.length_take, List.length_drop, markerSS_eq] at hlen
  omega

theorem rfindAux_spec (buf : List Nat) :
    ∀ n j, rfindAux buf n = some j →
      patAt markerSS buf j = true ∧ j < n ∧
        ∀ k, j < k → k < n → patAt markerSS buf k = false := by
  intro n
  induction n with
  | zero => intro j h; simp [rfindAux] at h
  | succ m ih =>
    intro j h
    by_cases hp : patAt markerSS buf m = true
    · rw [rfindAux, if_pos hp] at h
      obtain rfl : m = j := by simpa using h
      exact ⟨hp, Nat.lt_succ_self m, fun k hk1 hk2 => by omega⟩
    · rw [rfindAux, if_neg hp] at h
      obtain ⟨h1, h2, h3⟩ := ih j h
      refine ⟨h1, by omega, fun k hk1 hk2 => ?_⟩
      rcases Nat.lt_or_ge k m with hk | hk
      · exact h3 k hk1 hk
      · have : k = m := by omega
        subst this
        exact Bool.eq_false_iff.mpr hp

theorem pyRfind_spec (buf : List Nat) (j : Nat) (h : pyRfind buf = some j) :
    patAt markerSS buf j = true ∧ ∀ k, j < k → patAt markerSS buf k = false := by
  obtain ⟨h1, _, h3⟩ := rfindAux_spec buf buf.length j h
  refine ⟨h1, fun k hk => ?_⟩
  rcases Nat.lt_or_ge k buf.length with hlt | hge
  · exact h3 k hk hlt
  · exact patAt_false_of_len buf k (by omega)

/-- Claim C1 (the code at the failing input): a buffer holding exactly two
complete back-to-back 115-byte sweep frames is decoded by the exhaustive
`read_data` scan into exactly ONE sweep (the first), and the buffer is not
trimmed at all.  The loop advances the cursor by 116 bytes (not the
frame's length 115), so the second frame's marker at offset 115 is never
found; the loop then exits with `idx = -1`, which also skips the
`if idx > 0` trim. -/
theorem read_data_two_backtoback_decodes_one :
    read_data (frame0 ++ frame0)
      = ([decodeSweep (List.replicate 112 0)], frame0 ++ frame0) := by
  rfl

/-- Claim C2 counterexample: a buffer consisting of exactly two complete
back-to-back frames yields NO decoded sweep from the latest-only
`parse_sweep` (the claim says it yields the second frame): the last
marker sits at offset 115 and `len(data) > idx + 115` demands a 116th
byte after the marker start. -/
theorem parse_sweep_two_backtoback_none :
    parse_sweep (frame0 ++ frame0) = none := by
  rfl

/-- Claim C2 amended: when `rfind` locates the last `$S` marker at `idx`,
`parse_sweep` decodes the 112-byte payload at that marker exactly when at
least 116 bytes from the marker start are present (one byte beyond the
115-byte frame), and returns nothing when the buffer ends within 115
bytes of the marker start; `parse_sweep` never modifies the buffer (it is
a pure function of `data`).  The `idx` returned by `rfind` carries a
marker and no later position does. -/
theorem parse_sweep_latest_only (data : List Nat) (idx : Nat)
    (h : pyRfind data = some idx) :
    patAt markerSS data idx = true ∧
    (∀ k, idx < k → patAt markerSS data k = false) ∧
    (idx + 116 ≤ data.length →
      parse_sweep data = some (decodeSweep ((data.drop (idx + 3)).take 112))) ∧
    (data.length ≤ idx + 115 → parse_sweep data = none) := by
  obtain ⟨h1, h2⟩ := pyRfind_spec data idx h
  refine ⟨h1, h2, ?_, ?_⟩
  · intro hlen
    have hl : ((data.drop (idx + 3)).take 112).length = 112 := by
      simp only [List.length_take, List.length_drop]
      omega
    simp [parse_sweep, h, hl, show data.length > idx + 115 by omega]
  · intro hlen
    simp [parse_sweep, h, show ¬ (data.length > idx + 115) by omega]

/-- Witness for the amended claim C2: a single complete frame followed by
one extra byte is decoded. -/
theorem parse_sweep_latest_only_witness :
    parse_sweep (frame0 ++ [0])
      = some (decodeSweep (((frame0 ++ [0]).drop 3).take 112)) :=
  (parse_sweep_latest_only (frame0 ++ [0]) 0 (by rfl)).2.2.1 (by decide)

/-- Claim C3 (the code at the failing input): feeding the bytes
`frame0 ++ [0]` in one shot decodes the frame once, but feeding the same
bytes in two chunks (the frame, then the spare byte) decodes the SAME
frame twice — the first cycle never trims the decoded frame from the
buffer, so the second cycle re-decodes it.  Chunking independence fails. -/
theorem read_data_chunking_dependent :
    (readCycle [] (frame0 ++ [0])).1 = [decodeSweep (List.replicate 112 0)] ∧
    (readCycle [] frame0).1 ++ (readCycle (readCycle [] frame0).2 [0]).1
      = [decodeSweep (List.replicate 112 0), decodeSweep (List.replicate 112 0)] := by
  exact ⟨by rfl, by rfl⟩

/-- Claim C4 (the code at the failing input): after `read_data` decodes
the single complete frame that fills the buffer, the buffer is returned
UNCHANGED — the bytes of the fully decoded frame are not removed, because
the loop exits with `idx = -1` (no further marker) and the trim is guarded
by `idx > 0`. -/
theorem read_data_retains_decoded_frame :
    read_data frame0 = ([decodeSweep (List.replicate 112 0)], frame0) := by
  rfl

/-- Claim C5: the sweep decoder is a pure total function: every byte
value `v` in [0,255] maps to exactly `-v/2` dBm, and a 112-byte payload
decodes position-wise to 112 values; no byte value can make it fail. -/
theorem sweep_decoder_pure_total (v : Nat) (_hv : v ≤ 255)
    (p : List Nat) (hp : p.length = 112) :
    decodeByte v = -((v : ℚ) / 2) ∧
    (decodeSweep p).length = 112 ∧
    ∀ i : Nat, (decodeSweep p)[i]? = (p[i]?).map decodeByte := by
  refine ⟨rfl, ?_, ?_⟩
  · simp [decodeSweep, hp]
  · intro i
    simp [decodeSweep, List.getElem?_map]

/-- Witness for claim C5 at byte value 3 and a concrete 112-byte payload. -/
theorem sweep_decoder_pure_total_witness :
    decodeByte 3 = -(((3 : ℕ) : ℚ) / 2) ∧
    (decodeSweep (List.replicate 112 7)).length = 112 ∧
    (decodeSweep (List.replicate 112 7))[5]?
      = ((List.replicate 112 7)[5]?).map decodeByte := by
  have h := sweep_decoder_pure_total 3 (by omega) (List.replicate 112 7) (by simp)
  exact ⟨h.1, h.2.1, h.2.2 5⟩

theorem peakAfter_length (sweeps : List (List ℚ)) :
    ∀ init : List ℚ, (∀ s ∈ sweeps, s.length = 112) → init.length = 112 →
      (peakAfter sweeps init).length = 112 := by
  induction sweeps with
  | nil => intro init _ hinit; simpa [peakAfter] using hinit
  | cons s t ih =>
    intro init hs hinit
    have hst : peakAfter (s :: t) init = peakAfter t (np_maximum init s) := rfl
    rw [hst]
    exact ih (np_maximum init s) (fun x hx => hs x (by simp [hx]))
      (by simp [np_maximum, List.length_zipWith, hinit, hs s (by simp)])

theorem np_maximum_getD (a b : List ℚ) (i : Nat)
    (ha : i < a.length) (hb : i < b.length) :
    (np_maximum a b).getD i 0 = max (a.getD i 0) (b.getD i 0) := by
  have hz : i < (List.zipWith max a b).length := by
    simp only [List.length_zipWith]
    omega
  rw [np_maximum, List.getD_eq_getElem _ _ hz, List.getD_eq_getElem _ _ ha,
    List.getD_eq_getElem _ _ hb, List.getElem_zipWith]

theorem peakAfter_getD (sweeps : List (List ℚ)) :
    ∀ init : List ℚ, (∀ s ∈ sweeps, s.length = 112) → init.length = 112 →
      ∀ i : Nat, i < 112 →
        (peakAfter sweeps init).getD i 0
          = List.foldl max (init.getD i 0) (sweeps.map (fun s => s.getD i 0)) := by
  induction sweeps with
  | nil => intro init _ _ i _; rfl
  | cons s t ih =>
    intro init hs hinit i hi
    have hslen : s.length = 112 := hs s (by simp)
    have hst : peakAfter (s :: t) init = peakAfter t (np_maximum init s) := rfl
    rw [hst, ih (np_maximum init s) (fun x hx => hs x (by simp [hx]))
        (by simp [np_maximum, List.length_zipWith, hinit, hslen]) i hi,
      np_maximum_getD init s i (by omega) (by omega)]
    rfl

theorem le_foldl_max (l : List ℚ) : ∀ x : ℚ, x ≤ List.foldl max x l := by
  induction l with
  | nil => intro x; simp
  | cons a t ih =>
    intro x
    exact le_trans (le_max_left x a) (ih (max x a))

/-- Claim C7: between two explicit resets, every frequency bin of the
peak-hold array is monotonically non-decreasing along any sequence of
decoded sweeps (any prefix `u` of the sequence gives a value no larger
than the whole sequence does), and after the whole sequence the bin holds
the maximum of the reset baseline -120 and all the sweeps' values at that
bin. -/
theorem peak_hold_monotone (sweeps u v : List (List ℚ))
    (hs : ∀ s ∈ sweeps, s.length = 112) (huv : sweeps = u ++ v)
    (i : Nat) (hi : i < 112) :
    (peakAfter sweeps peak_hold_reset).length = 112 ∧
    (peakAfter u peak_hold_reset).getD i 0
      ≤ (peakAfter sweeps peak_hold_reset).getD i 0 ∧
    (peakAfter sweeps peak_hold_reset).getD i 0
      = List.foldl max (-120) (sweeps.map (fun s => s.getD i 0)) := by
  have hreset : peak_hold_reset.length = 112 := by simp [peak_hold_reset]
  have hbase : peak_hold_reset.getD i 0 = -120 := by
    rw [peak_hold_reset, List.getD_eq_getElem _ _ (by simpa using hi),
      List.getElem_replicate]
  have hu : ∀ s ∈ u, s.length = 112 := fun s h => hs s (by simp [huv, h])
  refine ⟨peakAfter_length sweeps peak_hold_reset hs hreset, ?_, ?_⟩
  · subst huv
    have happ : peakAfter (u ++ v) peak_hold_reset
        = peakAfter v (peakAfter u peak_hold_reset) := by
      simp [peakAfter, List.foldl_append]
    have hlen := peakAfter_length u peak_hold_reset hu hreset
    rw [happ, peakAfter_getD v (peakAfter u peak_hold_reset)
        (fun s h => hs s (by simp [h])) hlen i hi]
    exact le_foldl_max _ _
  · rw [peakAfter_getD sweeps peak_hold_reset hs hreset i hi, hbase]

/-- Witness for claim C7: one constant sweep after a reset. -/
theorem peak_hold_monotone_witness :
    (peakAfter [List.replicate 112 5] peak_hold_reset).length = 112 ∧
    (peakAfter [] peak_hold_reset).getD 0 0
      ≤ (peakAfter [List.replicate 112 5] peak_hold_reset).getD 0 0 ∧
    (peakAfter [List.replicate 112 5] peak_hold_reset).getD 0 0
      = List.foldl max (-120)
          ([List.replicate 112 5].map (fun s => s.getD 0 0)) := by
  have h := peak_hold_monotone [List.replicate 112 5] [] [List.replicate 112 5]
    (by intro s hsm; simp at hsm; subst hsm; simp) rfl 0 (by omega)
  exact ⟨h.1, h.2.1, h.2.2⟩

theorem cap_retains_tail (maxLen retainLen : Nat) (buf : List Nat)
    (h : buf.length > maxLen) :
    buf.take (buf.length - retainLen) ++ cap_if_oversized maxLen retainLen buf
        = buf ∧
    (retainLen ≤ maxLen →
      (cap_if_oversized maxLen retainLen buf).length = retainLen) := by
  rw [cap_if_oversized, if_pos h]
  refine ⟨List.take_append_drop _ _, fun hr => ?_⟩
  rw [List.length_drop]
  omega

theorem cap_noop (maxLen retainLen : Nat) (buf : List Nat)
    (h : ¬ buf.length > maxLen) :
    cap_if_oversized maxLen retainLen buf = buf := by
  rw [cap_if_oversized, if_neg h]

/-- Claim C10: the cap step of each read cycle.  GUI: when the buffer
exceeds 8000 bytes it is replaced by exactly its last 4000 bytes,
otherwise untouched; live tool and recorder: the same with 5000/2000. -/
theorem cap_if_oversized_spec (buf : List Nat) :
    (buf.length > 8000 →
      buf.take (buf.length - 4000) ++ cap_if_oversized 8000 4000 buf = buf ∧
      (cap_if_oversized 8000 4000 buf).length = 4000) ∧
    (¬ buf.length > 8000 → cap_if_oversized 8000 4000 buf = buf) ∧
    (buf.length > 5000 →
      buf.take (buf.length - 2000) ++ cap_if_oversized 5000 2000 buf = buf ∧
      (cap_if_oversized 5000 2000 buf).length = 2000) ∧
    (¬ buf.length > 5000 → cap_if_oversized 5000 2000 buf = buf) := by
  refine ⟨fun h => ?_, cap_noop 8000 4000 buf, fun h => ?_, cap_noop 5000 2000 buf⟩
  · obtain ⟨h1, h2⟩ := cap_retains_tail 8000 4000 buf h
    exact ⟨h1, h2 (by omega)⟩
  · obtain ⟨h1, h2⟩ := cap_retains_tail 5000 2000 buf h
    exact ⟨h1, h2 (by omega)⟩

/-- Witness for claim C10: an 8001-byte buffer is cut to its last 4000
bytes; a 3000-byte buffer passes the 5000/2000 cap untouched. -/
theorem cap_if_oversized_spec_witness :
    (cap_if_oversized 8000 4000 (List.replicate 8001 0)).length = 4000 ∧
    cap_if_oversized 5000 2000 (List.replicate 3000 1)
      = List.replicate 3000 1 := by
  have h1 := cap_if_oversized_spec (List.replicate 8001 0)
  have h2 := cap_if_oversized_spec (List.replicate 3000 1)
  exact ⟨(h1.1 (by simp only [List.length_replicate]; omega)).2,
    h2.2.2.2 (by simp only [List.length_replicate]; omega)⟩

/-- Claim C6 counterexample: on the malformed line
`#C2-F:5500000,x\r\n` (second field non-numeric) `parse_config` returns
False as claimed, but the tracked configuration is NOT left completely
unchanged: `start_freq` has already been overwritten with 5500 before
`int('x')` raises. -/
theorem parse_config_partial_update :
    (parse_config (strBytes "#C2-F:5500000,x\r\n") ⟨0, 0, 0⟩).1 = false ∧
    (parse_config (strBytes "#C2-F:5500000,x\r\n") ⟨0, 0, 0⟩).2.start_freq ≠ 0 := by
  constructor
  · rfl
  · have h : (parse_config (strBytes "#C2-F:5500000,x\r\n") ⟨0, 0, 0⟩).2.start_freq
        = ((5500000 : ℤ) : ℚ) / 1000 := by rfl
    rw [h]
    norm_num

/-- Claim C6 amended: `parse_config` is total (the bare `except` catches
the only exception source, the `int()` calls) and returns False on every
malformed input; on a False return `end_freq` and `step_freq` are always
left unchanged, while `start_freq` alone may have been updated (exactly
when the first field parses numerically and the line still fails later);
on a True return the step invariant `step = (end - start) / 112` holds. -/
theorem parse_config_error_handling (data : List Nat) (cfg : RFConfig) :
    ((parse_config data cfg).1 = false →
      (parse_config data cfg).2.end_freq = cfg.end_freq ∧
      (parse_config data cfg).2.step_freq = cfg.step_freq) ∧
    ((parse_config data cfg).1 = true →
      (parse_config data cfg).2.step_freq
        = ((parse_config data cfg).2.end_freq
            - (parse_config data cfg).2.start_freq) / 112) := by
  simp only [parse_config]
  split
  · simp
  · split
    · split
      · simp
      · split
        · simp
        · simp
    · simp

/-- Witness for the amended claim C6: the malformed line leaves `end_freq`
and `step_freq` at their prior values 2 and 3. -/
theorem parse_config_error_handling_witness :
    (parse_config (strBytes "#C2-F:5500000,x\r\n") ⟨1, 2, 3⟩).2.end_freq = 2 ∧
    (parse_config (strBytes "#C2-F:5500000,x\r\n") ⟨1, 2, 3⟩).2.step_freq = 3 :=
  (parse_config_error_handling (strBytes "#C2-F:5500000,x\r\n") ⟨1, 2, 3⟩).1 (by rfl)

/-- Claim C8: the sample configuration line parses to True with
start 5500 MHz, end 5700 MHz and step = (end - start) / 112. -/
theorem parse_config_sample :
    parse_config (strBytes "#C2-F:5500000,5700000,0000,-120\r\n") ⟨0, 0, 0⟩
      = (true, ⟨5500, 5700, (5700 - 5500) / 112⟩) := by
  have h : parse_config (strBytes "#C2-F:5500000,5700000,0000,-120\r\n") ⟨0, 0, 0⟩
      = (true, ⟨((5500000 : ℤ) : ℚ) / 1000, ((5700000 : ℤ) : ℚ) / 1000,
          (((5700000 : ℤ) : ℚ) / 1000 - ((5500000 : ℤ) : ℚ) / 1000) / 112⟩) := by
    rfl
  rw [h]
  norm_num

theorem digitsRev_length (f : Nat) :
    ∀ n k : Nat, n ≤ f → n < 10 ^ k → (digitsRev f n).length ≤ k := by
  induction f with
  | zero =>
    intro n k hf _
    simp [digitsRev]
  | succ m ih =>
    intro n k hf hk
    by_cases hn : n = 0
    · simp [digitsRev, hn]
    · rw [digitsRev, if_neg hn]
      cases k with
      | zero =>
        exfalso
        simp at hk
        omega
      | succ k' =>
        simp only [List.length_cons]
        have hd : n / 10 < n := Nat.div_lt_self (by omega) (by omega)
        have h2 : n / 10 < 10 ^ k' := by
          rw [pow_succ] at hk
          exact (Nat.div_lt_iff_lt_mul (by omega)).mpr hk
        have := ih (n / 10) k' (by omega) h2
        omega

theorem digitsRev_mem (f : Nat) :
    ∀ n c : Nat, c ∈ digitsRev f n → 48 ≤ c ∧ c ≤ 57 := by
  induction f with
  | zero => intro n c h; simp [digitsRev] at h
  | succ m ih =>
    intro n c h
    by_cases hn : n = 0
    · simp [digitsRev, hn] at h
    · rw [digitsRev, if_neg hn] at h
      rcases List.mem_cons.mp h with h1 | h2
      · have : n % 10 < 10 := Nat.mod_lt _ (by omega)
        omega
      · exact ih (n / 10) c h2

theorem fmt07d_length (n : ℤ) (h0 : 0 ≤ n) (h7 : n < 10000000) :
    (fmt07d n).length = 7 := by
  rw [fmt07d, if_neg (by omega)]
  have hn7 : n.toNat < 10 ^ 7 := by
    have h10 : (10 : ℕ) ^ 7 = 10000000 := by norm_num
    omega
  have hlen : (decDigits n.toNat).length ≤ 7 := by
    rw [decDigits, List.length_reverse]
    exact digitsRev_length n.toNat n.toNat 7 le_rfl hn7
  simp only [List.length_append, List.length_replicate]
  omega

theorem fmt07d_ascii (n : ℤ) (h0 : 0 ≤ n) : ∀ c ∈ fmt07d n, c < 128 := by
  intro c hc
  rw [fmt07d, if_neg (by omega)] at hc
  rcases List.mem_append.mp hc with h | h
  · have := List.eq_of_mem_replicate h
    omega
  · have := digitsRev_mem n.toNat n.toNat c (by simpa [decDigits] using h)
    omega

theorem cmdBytes_length (sk ek : ℤ) (hs0 : 0 ≤ sk) (hs7 : sk < 10000000)
    (he0 : 0 ≤ ek) (he7 : ek < 10000000) : (cmdBytes sk ek).length = 30 := by
  have l1 : (strBytes "C2-F:").length = 5 := rfl
  have l2 : (strBytes ",0000,-120").length = 10 := rfl
  simp only [cmdBytes, List.length_append, l1, l2,
    fmt07d_length sk hs0 hs7, fmt07d_length ek he0 he7, List.length_cons,
    List.length_nil]

theorem cmdBytes_ascii (sk ek : ℤ) (hs0 : 0 ≤ sk) (he0 : 0 ≤ ek) :
    ∀ c ∈ cmdBytes sk ek, c < 128 := by
  have hlit1 : ∀ x ∈ strBytes "C2-F:", x < 128 := by decide
  have hlit2 : ∀ x ∈ strBytes ",0000,-120", x < 128 := by decide
  intro c hc
  simp only [cmdBytes, List.mem_append] at hc
  rcases hc with (((h | h) | h) | h) | h
  · exact hlit1 c h
  · exact fmt07d_ascii sk hs0 c h
  · simp at h
    omega
  · exact fmt07d_ascii ek he0 c h
  · exact hlit2 c h

theorem encodeStr_ascii (s : List Nat) (h : ∀ c ∈ s, c < 128) :
    encodeStr s = s := by
  induction s with
  | nil => rfl
  | cons c t ih =>
    have hc : c < 128 := h c (by simp)
    have hstep : encodeStr (c :: t) = utf8Bytes c ++ encodeStr t := rfl
    rw [hstep, ih (fun x hx => h x (by simp [hx])), utf8Bytes, if_pos hc]
    rfl

/-- Claim C9 amended: for every `start_mhz`/`end_mhz` whose kHz
truncations lie in the 7-digit range `[0, 9999999]` targeted by the
`{:07d}` format (this covers the whole device band; outside it the
length-prefix character is no longer a single byte, see the
counterexample), `set_frequency` writes exactly `#`, then the single byte
whose value is the textual command length plus 2, then the 30-character
command `C2-F:<7-digit start kHz>,<7-digit end kHz>,0000,-120` with no
terminator; and in the same call — before any device response can
arrive — it sets the local start/end frequencies, rebuilds the frequency
axis, resets every peak-hold bin to -120, and clears the history and the
byte buffer. -/
theorem set_frequency_spec (s e : ℚ) (st : GUIState)
    (hs0 : 0 ≤ truncQ (s * 1000)) (hs7 : truncQ (s * 1000) < 10000000)
    (he0 : 0 ≤ truncQ (e * 1000)) (he7 : truncQ (e * 1000) < 10000000) :
    (set_frequency s e st).2
      = 35 :: ((cmdBytes (truncQ (s * 1000)) (truncQ (e * 1000))).length + 2)
          :: cmdBytes (truncQ (s * 1000)) (truncQ (e * 1000)) ∧
    (cmdBytes (truncQ (s * 1000)) (truncQ (e * 1000))).length = 30 ∧
    (set_frequency s e st).1.start_freq = s ∧
    (set_frequency s e st).1.end_freq = e ∧
    (set_frequency s e st).1.frequencies = linspaceQ s e 112 ∧
    (set_frequency s e st).1.peak_hold = List.replicate 112 (-120) ∧
    (set_frequency s e st).1.history = [] ∧
    (set_frequency s e st).1.buffer = [] := by
  have hlen := cmdBytes_length _ _ hs0 hs7 he0 he7
  have hascii := cmdBytes_ascii (truncQ (s * 1000)) (truncQ (e * 1000)) hs0 he0
  refine ⟨?_, hlen, rfl, rfl, rfl, rfl, rfl, rfl⟩
  have hwire : (set_frequency s e st).2
      = encodeStr (35
          :: ((cmdBytes (truncQ (s * 1000)) (truncQ (e * 1000))).length + 2)
          :: cmdBytes (truncQ (s * 1000)) (truncQ (e * 1000))) := rfl
  rw [hwire]
  apply encodeStr_ascii
  intro c hc
  rcases List.mem_cons.mp hc with rfl | hc2
  · omega
  rcases List.mem_cons.mp hc2 with rfl | hc3
  · omega
  · exact hascii c hc3

/-- Witness for the amended claim C9 at the default span 5500-5700 MHz
from a dirty mid-stream state: the 32-byte wire command and the local
resets. -/
theorem set_frequency_spec_witness :
    (set_frequency 5500 5700 gui_dirty).2
      = 35 :: ((cmdBytes (truncQ ((5500 : ℚ) * 1000))
                  (truncQ ((5700 : ℚ) * 1000))).length + 2)
          :: cmdBytes (truncQ ((5500 : ℚ) * 1000)) (truncQ ((5700 : ℚ) * 1000)) ∧
    (cmdBytes (truncQ ((5500 : ℚ) * 1000)) (truncQ ((5700 : ℚ) * 1000))).length
      = 30 ∧
    (set_frequency 5500 5700 gui_dirty).1.start_freq = 5500 ∧
    (set_frequency 5500 5700 gui_dirty).1.end_freq = 5700 ∧
    (set_frequency 5500 5700 gui_dirty).1.frequencies = linspaceQ 5500 5700 112 ∧
    (set_frequency 5500 5700 gui_dirty).1.peak_hold = List.replicate 112 (-120) ∧
    (set_frequency 5500 5700 gui_dirty).1.history = [] ∧
    (set_frequency 5500 5700 gui_dirty).1.buffer = [] := by
  have hs : truncQ ((5500 : ℚ) * 1000) = ((5500000 : ℕ) : ℤ) := by
    rw [show ((5500 : ℚ) * 1000) = ((5500000 : ℕ) : ℚ) by push_cast; norm_num]
    simp [truncQ, Rat.num_natCast, Rat.den_natCast, Int.tdiv_one]
  have he : truncQ ((5700 : ℚ) * 1000) = ((5700000 : ℕ) : ℤ) := by
    rw [show ((5700 : ℚ) * 1000) = ((5700000 : ℕ) : ℚ) by push_cast; norm_num]
    simp [truncQ, Rat.num_natCast, Rat.den_natCast, Int.tdiv_one]
  exact set_frequency_spec 5500 5700 gui_dirty
    (by rw [hs]; positivity) (by rw [hs]; norm_num)
    (by rw [he]; positivity) (by rw [he]; norm_num)

set_option maxRecDepth 1000000 in
/-- Claim C9 counterexample: at the (absurd but accepted) input
`start_mhz = end_mhz = 10^60`, the kHz value has 64 digits, the textual
command is 144 characters long, and `chr(len(cmd) + 2) = chr(146)`
UTF-8-encodes to the TWO bytes 194, 146 — the wire sequence is not
`#`, single length byte, command, refuting the claim as stated for every
`start_mhz`/`end_mhz`. -/
theorem set_frequency_huge_not_single_byte :
    (set_frequency ((10 ^ 60 : ℕ) : ℚ) ((10 ^ 60 : ℕ) : ℚ) gui_init).2
      ≠ 35 :: ((cmdBytes (truncQ (((10 ^ 60 : ℕ) : ℚ) * 1000))
                  (truncQ (((10 ^ 60 : ℕ) : ℚ) * 1000))).length + 2)
          :: cmdBytes (truncQ (((10 ^ 60 : ℕ) : ℚ) * 1000))
               (truncQ (((10 ^ 60 : ℕ) : ℚ) * 1000)) := by
  have hsk : truncQ (((10 ^ 60 : ℕ) : ℚ) * 1000) = ((10 ^ 63 : ℕ) : ℤ) := by
    rw [show (((10 ^ 60 : ℕ) : ℚ) * 1000) = ((10 ^ 63 : ℕ) : ℚ) by
      push_cast; norm_num]
    simp [truncQ, Rat.num_natCast, Rat.den_natCast, Int.tdiv_one]
  have hunf : (set_frequency ((10 ^ 60 : ℕ) : ℚ) ((10 ^ 60 : ℕ) : ℚ) gui_init).2
      = encodeStr (35
          :: ((cmdBytes (truncQ (((10 ^ 60 : ℕ) : ℚ) * 1000))
                (truncQ (((10 ^ 60 : ℕ) : ℚ) * 1000))).length + 2)
          :: cmdBytes (truncQ (((10 ^ 60 : ℕ) : ℚ) * 1000))
               (truncQ (((10 ^ 60 : ℕ) : ℚ) * 1000))) := rfl
  rw [hunf, hsk]
  decide

end DTSpectrum
